import Mathlib

/-!
Shallow embedding of the dancecoach pose-comparison core:
`src/utils/PoseComparison.ts`, `src/utils/LandmarkSmoother.ts` and the
`ScoreSmoother` class, together with theorems checking the natural-language
specification against these definitions.  Machine numbers are modelled as
real numbers; JavaScript `Math.sqrt`, `Math.acos`, `Math.atan2` become
`Real.sqrt`, `Real.arccos` and a case-defined `atan2`.
-/

namespace DanceCoach

/-- Embeds mediapipe's `NormalizedLandmark`: `x`, `y`, `z` are `number`s and
`visibility` is an optional `number` (`lm.visibility ?? 0` in the source reads
it with default 0). -/
structure NormalizedLandmark where
  x : ℝ
  y : ℝ
  z : ℝ
  visibility : Option ℝ

/-- The `Region` union type of `PoseComparison.ts`. -/
inductive Region where
  | leftArm
  | rightArm
  | leftLeg
  | rightLeg
  | torso
deriving DecidableEq

/-- The `AngleComparison` interface of `PoseComparison.ts`. -/
structure AngleComparison where
  name : String
  refAngle : ℝ
  userAngle : ℝ
  diff : ℝ
  score : ℝ
  region : Region

/-- The `PoseComparisonResult` interface; the `Record<string, number>` of
region scores is embedded as an association list over `Region` keys (the
source only ever uses `Region` values as keys). -/
structure PoseComparisonResult where
  angles : List AngleComparison
  overallScore : ℝ
  regionScores : List (Region × ℝ)

/-- One entry of `ANGLE_DEFINITIONS`: name, landmark indices A, B, C, region. -/
structure AngleDefinition where
  name : String
  a : Nat
  b : Nat
  c : Nat
  region : Region
deriving DecidableEq

/-- Embeds `scoreAngle` of `PoseComparison.ts`:
diff < 15 gives 1.0; diff < 30 gives `1.0 - ((diff - 15) / 15) * 0.5`;
diff < 60 gives `0.5 - ((diff - 30) / 30) * 0.5`; otherwise 0.0. -/
noncomputable def scoreAngle (diff : ℝ) : ℝ :=
  if diff < 15 then 1.0
  else if diff < 30 then 1.0 - ((diff - 15) / 15) * 0.5
  else if diff < 60 then 0.5 - ((diff - 30) / 30) * 0.5
  else 0.0

/-- Embeds `calculateAngle` of `PoseComparison.ts`: the angle at joint `b`
between rays `b`→`a` and `b`→`c`, in degrees; 0 when either ray has zero
magnitude.  (`a.z ?? 0` in the source is just `a.z`, the field being a
non-optional `number` here.) -/
noncomputable def calculateAngle (a b c : NormalizedLandmark) : ℝ :=
  let bax := a.x - b.x
  let bay := a.y - b.y
  let baz := a.z - b.z
  let bcx := c.x - b.x
  let bcy := c.y - b.y
  let bcz := c.z - b.z
  let dp := bax * bcx + bay * bcy + baz * bcz
  let magBA := Real.sqrt (bax ^ 2 + bay ^ 2 + baz ^ 2)
  let magBC := Real.sqrt (bcx ^ 2 + bcy ^ 2 + bcz ^ 2)
  if magBA = 0 ∨ magBC = 0 then 0
  else
    let cosAngle := max (-1) (min 1 (dp / (magBA * magBC)))
    Real.arccos cosAngle * 180 / Real.pi

/-- Mathematical `Math.atan2 y x` (real numbers carry no signed zero, so the
JavaScript signed-zero cases collapse into the `x = 0` branches below). -/
noncomputable def atan2 (y x : ℝ) : ℝ :=
  if 0 < x then Real.arctan (y / x)
  else if x < 0 then
    if 0 ≤ y then Real.arctan (y / x) + Real.pi
    else Real.arctan (y / x) - Real.pi
  else if 0 < y then Real.pi / 2
  else if y < 0 then -(Real.pi / 2)
  else 0

/-- Embeds `calculateTorsoLean` of `PoseComparison.ts`: angle from vertical of
the hip-midpoint to shoulder-midpoint vector; indexing past the end of the
array (`undefined` in the source, guarded by the `!lShoulder || ...` check)
is the `none` cases of the matches. -/
noncomputable def calculateTorsoLean (landmarks : List NormalizedLandmark) : ℝ :=
  match landmarks.get? 11, landmarks.get? 12, landmarks.get? 23, landmarks.get? 24 with
  | some lShoulder, some rShoulder, some lHip, some rHip =>
    let midShoulderX := (lShoulder.x + rShoulder.x) / 2
    let midShoulderY := (lShoulder.y + rShoulder.y) / 2
    let midHipX := (lHip.x + rHip.x) / 2
    let midHipY := (lHip.y + rHip.y) / 2
    let dx := midShoulderX - midHipX
    let dy := midShoulderY - midHipY
    |atan2 dx (-dy) * (180 / Real.pi)|
  | _, _, _, _ => 0

/-- The eight-entry `ANGLE_DEFINITIONS` catalog of `PoseComparison.ts`. -/
def ANGLE_DEFINITIONS : List AngleDefinition :=
  [⟨"Left Elbow", 11, 13, 15, Region.leftArm⟩,
   ⟨"Right Elbow", 12, 14, 16, Region.rightArm⟩,
   ⟨"Left Shoulder", 13, 11, 23, Region.leftArm⟩,
   ⟨"Right Shoulder", 14, 12, 24, Region.rightArm⟩,
   ⟨"Left Knee", 23, 25, 27, Region.leftLeg⟩,
   ⟨"Right Knee", 24, 26, 28, Region.rightLeg⟩,
   ⟨"Left Hip", 11, 23, 25, Region.leftLeg⟩,
   ⟨"Right Hip", 12, 24, 26, Region.rightLeg⟩]

/-- The `MIN_VISIBILITY` constant of `PoseComparison.ts`. -/
noncomputable def MIN_VISIBILITY : ℝ := 0.5

/-- Visibility test on a present landmark: `(lm.visibility ?? 0) >= 0.5`. -/
noncomputable def visibleLandmark (lm : NormalizedLandmark) : Prop :=
  MIN_VISIBILITY ≤ lm.visibility.getD 0

noncomputable instance (lm : NormalizedLandmark) : Decidable (visibleLandmark lm) := by
  unfold visibleLandmark; infer_instance

/-- Embeds `landmarkVisible` of `PoseComparison.ts`:
`lm !== undefined && (lm.visibility ?? 0) >= MIN_VISIBILITY`. -/
noncomputable def landmarkVisible : Option NormalizedLandmark → Prop
  | none => False
  | some lm => visibleLandmark lm

/-- One iteration of the `for (const def of ANGLE_DEFINITIONS)` loop body of
`comparePoses`: `none` when the iteration `continue`s (a landmark is missing
or below the visibility threshold in either set — the source's
`landmarkVisible` returns false on `undefined`, which is the wildcard match
arm here), otherwise the pushed `AngleComparison`. -/
noncomputable def angleEntry (refLandmarks userLandmarks : List NormalizedLandmark)
    (d : AngleDefinition) : Option AngleComparison :=
  match refLandmarks.get? d.a, refLandmarks.get? d.b, refLandmarks.get? d.c,
      userLandmarks.get? d.a, userLandmarks.get? d.b, userLandmarks.get? d.c with
  | some refA, some refB, some refC, some userA, some userB, some userC =>
    if visibleLandmark refA ∧ visibleLandmark refB ∧ visibleLandmark refC ∧
        visibleLandmark userA ∧ visibleLandmark userB ∧ visibleLandmark userC then
      let refAngle := calculateAngle refA refB refC
      let userAngle := calculateAngle userA userB userC
      let diff := |refAngle - userAngle|
      some ⟨d.name, refAngle, userAngle, diff, scoreAngle diff, d.region⟩
    else none
  | _, _, _, _, _, _ => none

/-- The torso-lean comparison that `comparePoses` pushes after the loop. -/
noncomputable def torsoEntry (refLandmarks userLandmarks : List NormalizedLandmark) :
    AngleComparison :=
  let refLeanDeg := calculateTorsoLean refLandmarks
  let userLeanDeg := calculateTorsoLean userLandmarks
  let leanDiff := |refLeanDeg - userLeanDeg|
  ⟨"Torso Lean", refLeanDeg, userLeanDeg, leanDiff, scoreAngle leanDiff, Region.torso⟩

/-- The regions of `angles` in order of first appearance: exactly the key set
of the `regionBuckets` object of `comparePoses`, in insertion order. -/
def regionsOf (angles : List AngleComparison) : List Region :=
  angles.foldl (fun acc a_ => if a_.region ∈ acc then acc else acc ++ [a_.region]) []

/-- Embeds the per-region averaging of `comparePoses`.  The bucket for region
`r` collects, in order, exactly the scores of the angles whose `region` is
`r`, so its mean is the mean of the scores of `angles.filter (·.region = r)`;
`Object.entries` enumerates the buckets in key-insertion order `regionsOf`. -/
noncomputable def regionScoresOf (angles : List AngleComparison) : List (Region × ℝ) :=
  (regionsOf angles).map fun r =>
    let scores := (angles.filter fun a_ => a_.region = r).map AngleComparison.score
    (r, scores.sum / scores.length)

/-- Embeds the overall score of `comparePoses`: mean of all angle scores, as a
percentage. -/
noncomputable def overallScoreOf (angles : List AngleComparison) : ℝ :=
  (angles.map AngleComparison.score).sum / angles.length * 100

/-- Embeds `comparePoses` of `PoseComparison.ts`.  The loop over
`ANGLE_DEFINITIONS` pushing or `continue`-ing is `List.filterMap angleEntry`;
the torso-lean comparison is pushed afterwards, then the empty-`angles` check
and the aggregation. -/
noncomputable def comparePoses (refLandmarks userLandmarks : List NormalizedLandmark) :
    Option PoseComparisonResult :=
  if refLandmarks.length < 33 ∨ userLandmarks.length < 33 then none
  else
    let angles := ANGLE_DEFINITIONS.filterMap (angleEntry refLandmarks userLandmarks) ++
      [torsoEntry refLandmarks userLandmarks]
    if angles.length = 0 then none
    else some ⟨angles, overallScoreOf angles, regionScoresOf angles⟩

/-- Key lookup in an association list, mirroring JavaScript property access
`m[k]` (`undefined` becomes `none`). -/
def lookupRegion : List (Region × ℝ) → Region → Option ℝ
  | [], _ => none
  | p :: rest, r => if p.1 = r then some p.2 else lookupRegion rest r

/-- State of a `LandmarkSmoother` instance: the nullable `previous` array and
the `alpha` field fixed at construction. -/
structure LandmarkSmoother where
  previous : Option (List NormalizedLandmark)
  alpha : ℝ

/-- One element of the `landmarks.map` in `LandmarkSmoother.smooth`: blend
`x`, `y`, `z` with the previous frame and pass `visibility` through raw. -/
noncomputable def blendLandmark (alpha : ℝ) (lm prev : NormalizedLandmark) :
    NormalizedLandmark :=
  ⟨alpha * lm.x + (1 - alpha) * prev.x,
   alpha * lm.y + (1 - alpha) * prev.y,
   alpha * lm.z + (1 - alpha) * prev.z,
   lm.visibility⟩

/-- Embeds `LandmarkSmoother.smooth`, returning the output array and the
updated instance state.  Under the length guard, mapping over `landmarks`
with index `i` reading `previous[i]` is `zipWith` of the two arrays. -/
noncomputable def LandmarkSmoother.smooth (s : LandmarkSmoother)
    (landmarks : List NormalizedLandmark) :
    List NormalizedLandmark × LandmarkSmoother :=
  match s.previous with
  | none => (landmarks, ⟨some landmarks, s.alpha⟩)
  | some prev =>
    if prev.length ≠ landmarks.length then (landmarks, ⟨some landmarks, s.alpha⟩)
    else
      let smoothed := List.zipWith (blendLandmark s.alpha) landmarks prev
      (smoothed, ⟨some smoothed, s.alpha⟩)

/-- Embeds `LandmarkSmoother.reset`: clear `previous`. -/
def LandmarkSmoother.reset (s : LandmarkSmoother) : LandmarkSmoother :=
  ⟨none, s.alpha⟩

/-- State of a `ScoreSmoother` instance: `smoothedRegions` (a JavaScript
object, embedded as an association list with unique keys), `smoothedOverall`,
the `hasData` flag, and the `alpha` field fixed at construction. -/
structure ScoreSmoother where
  smoothedRegions : List (String × ℝ)
  smoothedOverall : ℝ
  hasData : Bool
  alpha : ℝ

/-- JavaScript property read `m[k]` on an object embedded as an association
list. -/
def getKey : List (String × ℝ) → String → Option ℝ
  | [], _ => none
  | p :: rest, k => if p.1 = k then some p.2 else getKey rest k

/-- JavaScript property write `m[k] = v`: overwrite in place when the key is
present, append otherwise. -/
def setKey : List (String × ℝ) → String → ℝ → List (String × ℝ)
  | [], k, v => [(k, v)]
  | p :: rest, k, v => if p.1 = k then (k, v) :: rest else p :: setKey rest k v

/-- The `for (const key of Object.keys(regionScores))` loop of
`ScoreSmoother.update`: a left fold over the incoming entries (an object's
keys are unique and enumerate in insertion order); each iteration reads
`this.smoothedRegions[key] ?? regionScores[key]` from the accumulator and
writes the blended value back to the accumulator. -/
noncomputable def emaFold (alpha : ℝ) (init incoming : List (String × ℝ)) :
    List (String × ℝ) :=
  incoming.foldl
    (fun acc kv => setKey acc kv.1 (alpha * kv.2 + (1 - alpha) * ((getKey acc kv.1).getD kv.2)))
    init

/-- Embeds `ScoreSmoother.update`, returning the `{regions, overall}` result
and the updated instance state. -/
noncomputable def ScoreSmoother.update (s : ScoreSmoother)
    (regionScores : List (String × ℝ)) (overallScore : ℝ) :
    (List (String × ℝ) × ℝ) × ScoreSmoother :=
  if s.hasData then
    let regions := emaFold s.alpha s.smoothedRegions regionScores
    let overall := s.alpha * overallScore + (1 - s.alpha) * s.smoothedOverall
    ((regions, overall), ⟨regions, overall, true, s.alpha⟩)
  else
    ((regionScores, overallScore), ⟨regionScores, overallScore, true, s.alpha⟩)

/-- Embeds `ScoreSmoother.reset`: clear the stored map, the overall score and
the `hasData` flag. -/
def ScoreSmoother.reset (s : ScoreSmoother) : ScoreSmoother :=
  ⟨[], 0, false, s.alpha⟩

/-! Concrete example inputs used as witnesses and counterexamples. -/

/-- A landmark at the origin with absent visibility (treated as 0). -/
noncomputable def pt0 : NormalizedLandmark := ⟨0, 0, 0, none⟩

/-- A landmark one unit below the origin with absent visibility. -/
noncomputable def ptHip : NormalizedLandmark := ⟨0, 1, 0, none⟩

/-- A fully visible landmark at the origin. -/
noncomputable def ptVis : NormalizedLandmark := ⟨0, 0, 0, some 1⟩

/-- A 33-landmark set: hips (indices 23, 24) at `ptHip`, everything else at
`pt0`; every visibility absent, hence below the 0.5 threshold. -/
noncomputable def exLms : List NormalizedLandmark :=
  [pt0, pt0, pt0, pt0, pt0, pt0, pt0, pt0, pt0, pt0,
   pt0, pt0, pt0, pt0, pt0, pt0, pt0, pt0, pt0, pt0,
   pt0, pt0, pt0, ptHip, ptHip, pt0, pt0, pt0, pt0, pt0,
   pt0, pt0, pt0]

/-- A 34-landmark set (one longer than the documented 33). -/
noncomputable def ex34 : List NormalizedLandmark :=
  [pt0, pt0, pt0, pt0, pt0, pt0, pt0, pt0, pt0, pt0,
   pt0, pt0, pt0, pt0, pt0, pt0, pt0, pt0, pt0, pt0,
   pt0, pt0, pt0, ptHip, ptHip, pt0, pt0, pt0, pt0, pt0,
   pt0, pt0, pt0, pt0]

/-- The result `comparePoses exLms exLms` evaluates to: only the torso-lean
comparison survives. -/
noncomputable def exRes : PoseComparisonResult :=
  ⟨[torsoEntry exLms exLms], overallScoreOf [torsoEntry exLms exLms],
   regionScoresOf [torsoEntry exLms exLms]⟩

lemma not_visible_pt0 : ¬ visibleLandmark pt0 := by
  simp only [visibleLandmark, pt0, MIN_VISIBILITY, Option.getD_none]
  norm_num

lemma not_visible_ptHip : ¬ visibleLandmark ptHip := by
  simp only [visibleLandmark, ptHip, MIN_VISIBILITY, Option.getD_none]
  norm_num

/-- If the first reference landmark of an angle definition is not visible the
loop iteration skips the definition. -/
lemma angleEntry_eq_none_of_first {refL userL : List NormalizedLandmark}
    {d : AngleDefinition} (h : ¬ landmarkVisible (refL.get? d.a)) :
    angleEntry refL userL d = none := by
  unfold angleEntry
  rcases hra : refL.get? d.a with _ | refA
  · rcases refL.get? d.b with _ | refB <;>
      rcases refL.get? d.c with _ | refC <;>
        rcases userL.get? d.a with _ | userA <;>
          rcases userL.get? d.b with _ | userB <;>
            rcases userL.get? d.c with _ | userC <;> rfl
  · rw [hra] at h
    have hva : ¬ visibleLandmark refA := h
    rcases refL.get? d.b with _ | refB <;>
      rcases refL.get? d.c with _ | refC <;>
        rcases userL.get? d.a with _ | userA <;>
          rcases userL.get? d.b with _ | userB <;>
            rcases userL.get? d.c with _ | userC <;>
      first
        | rfl
        | exact if_neg (fun hc => hva hc.1)

lemma exLms_invisible : ∀ i : Nat, ¬ landmarkVisible (exLms.get? i) := by
  intro i
  have hmem : ∀ lm ∈ exLms, lm = pt0 ∨ lm = ptHip := by
    intro lm hlm
    simp only [exLms, List.mem_cons, List.not_mem_nil, or_false] at hlm
    rcases hlm with h | h | h | h | h | h | h | h | h | h | h | h | h | h | h | h | h |
      h | h | h | h | h | h | h | h | h | h | h | h | h | h | h | h <;>
      simp [h]
  rcases hg : exLms.get? i with _ | lm
  · simp [landmarkVisible]
  · have : lm = pt0 ∨ lm = ptHip := hmem lm (List.get?_mem hg)
    rcases this with h | h <;> subst h
    · exact not_visible_pt0
    · exact not_visible_ptHip

lemma filterMap_exLms_nil :
    ANGLE_DEFINITIONS.filterMap (angleEntry exLms exLms) = [] := by
  have h : ∀ d : AngleDefinition, angleEntry exLms exLms d = none :=
    fun d => angleEntry_eq_none_of_first (exLms_invisible d.a)
  simp only [ANGLE_DEFINITIONS, List.filterMap_cons, h, List.filterMap_nil]

lemma exLms_length : exLms.length = 33 := rfl

lemma comparePoses_exLms : comparePoses exLms exLms = some exRes := by
  unfold comparePoses
  rw [if_neg (by rw [exLms_length]; omega), filterMap_exLms_nil]
  rw [List.nil_append, if_neg (by simp)]
  rfl

/-! Claim theorems. -/

/-- C1: for non-negative real `diff`, `scoreAngle` is 1.0 below 15, the
linear interpolation from 1.0 to 0.5 on [15, 30), the linear interpolation
from 0.5 to 0.0 on [30, 60), and 0.0 from 60 on; `scoreAngle 0 = 1`,
`scoreAngle 15 = 1`, `scoreAngle 30 = 0.5`, `scoreAngle 60 = 0`; the value
always lies in [0, 1]; and the function is monotonically non-increasing. -/
theorem C1_scoreAngle_piecewise :
    (∀ d : ℝ, 0 ≤ d → d < 15 → scoreAngle d = 1) ∧
    (∀ d : ℝ, 15 ≤ d → d < 30 → scoreAngle d = 1 - (d - 15) / 30) ∧
    (∀ d : ℝ, 30 ≤ d → d < 60 → scoreAngle d = 0.5 - (d - 30) / 60) ∧
    (∀ d : ℝ, 60 ≤ d → scoreAngle d = 0) ∧
    scoreAngle 0 = 1 ∧ scoreAngle 15 = 1 ∧ scoreAngle 30 = 0.5 ∧ scoreAngle 60 = 0 ∧
    (∀ d : ℝ, 0 ≤ d → 0 ≤ scoreAngle d ∧ scoreAngle d ≤ 1) ∧
    (∀ d1 d2 : ℝ, 0 ≤ d1 → d1 ≤ d2 → scoreAngle d2 ≤ scoreAngle d1) := by
  have hlow : ∀ d : ℝ, d < 15 → scoreAngle d = 1 := by
    intro d h; unfold scoreAngle; rw [if_pos h]; norm_num
  have hmid : ∀ d : ℝ, 15 ≤ d → d < 30 → scoreAngle d = 1 - (d - 15) / 30 := by
    intro d h1 h2; unfold scoreAngle
    rw [if_neg (by linarith), if_pos h2]; ring
  have hhigh : ∀ d : ℝ, 30 ≤ d → d < 60 → scoreAngle d = 0.5 - (d - 30) / 60 := by
    intro d h1 h2; unfold scoreAngle
    rw [if_neg (by linarith), if_neg (by linarith), if_pos h2]; ring
  have htop : ∀ d : ℝ, 60 ≤ d → scoreAngle d = 0 := by
    intro d h; unfold scoreAngle
    rw [if_neg (by linarith), if_neg (by linarith), if_neg (by linarith)]; norm_num
  have hbounds : ∀ d : ℝ, 0 ≤ scoreAngle d ∧ scoreAngle d ≤ 1 := by
    intro d; unfold scoreAngle
    split_ifs with h1 h2 h3 <;> push_neg at * <;> constructor <;> norm_num <;> linarith
  have hmono : ∀ d1 d2 : ℝ, d1 ≤ d2 → scoreAngle d2 ≤ scoreAngle d1 := by
    intro d1 d2 h; unfold scoreAngle
    split_ifs with h1 h2 h3 h4 h5 h6 h7 h8 h9 h10 h11 h12 <;>
      push_neg at * <;> norm_num <;> linarith
  exact ⟨fun d _ h => hlow d h, hmid, hhigh, htop,
    hlow 0 (by norm_num), hmid 15 (by norm_num) (by norm_num) |>.trans (by norm_num),
    hhigh 30 (by norm_num) (by norm_num) |>.trans (by norm_num),
    htop 60 (by norm_num), fun d _ => hbounds d, fun d1 d2 _ h => hmono d1 d2 h⟩

/-- C1 witness: the theorem evaluated at concrete points of every branch. -/
theorem C1_scoreAngle_piecewise_witness :
    (0 : ℝ) ≤ 20 ∧ (15 : ℝ) ≤ 20 ∧ (20 : ℝ) < 30 ∧
      scoreAngle 20 = 1 - (20 - 15) / 30 ∧
      (0 : ℝ) ≤ 40 ∧ (40 : ℝ) ≤ 70 ∧ scoreAngle 70 ≤ scoreAngle 40 :=
  ⟨by norm_num, by norm_num, by norm_num,
   C1_scoreAngle_piecewise.2.1 20 (by norm_num) (by norm_num),
   by norm_num, by norm_num,
   C1_scoreAngle_piecewise.2.2.2.2.2.2.2.2.2 40 70 (by norm_num) (by norm_num)⟩

/-- C9: if either ray B→A or B→C has zero magnitude (coincident points), the
joint angle is 0 degrees; and the computation is total, always returning a
well-defined real number in [0, 180] (never NaN or undefined). -/
theorem C9_calculateAngle_degenerate :
    ∀ a b c : NormalizedLandmark,
      (((a.x = b.x ∧ a.y = b.y ∧ a.z = b.z) ∨ (c.x = b.x ∧ c.y = b.y ∧ c.z = b.z)) →
        calculateAngle a b c = 0) ∧
      0 ≤ calculateAngle a b c ∧ calculateAngle a b c ≤ 180 := by
  intro a b c
  constructor
  · intro h
    unfold calculateAngle
    rw [if_pos]
    rcases h with ⟨hx, hy, hz⟩ | ⟨hx, hy, hz⟩
    · left; rw [hx, hy, hz]; simp
    · right; rw [hx, hy, hz]; simp
  · unfold calculateAngle
    dsimp only
    split_ifs with h
    · norm_num
    · set s := (a.x - b.x) * (c.x - b.x) + (a.y - b.y) * (c.y - b.y) +
        (a.z - b.z) * (c.z - b.z) with hs
      set m := Real.sqrt ((a.x - b.x) ^ 2 + (a.y - b.y) ^ 2 + (a.z - b.z) ^ 2) *
        Real.sqrt ((c.x - b.x) ^ 2 + (c.y - b.y) ^ 2 + (c.z - b.z) ^ 2) with hm
      have h1 : 0 ≤ Real.arccos (max (-1) (min 1 (s / m))) := Real.arccos_nonneg _
      have h2 : Real.arccos (max (-1) (min 1 (s / m))) ≤ Real.pi := Real.arccos_le_pi _
      have hpi : 0 < Real.pi := Real.pi_pos
      constructor
      · positivity
      · rw [div_le_iff₀ hpi]
        nlinarith

/-- With two well-formed inputs, `comparePoses` reaches the aggregation and
returns the result built from the loop entries plus the torso-lean entry. -/
lemma comparePoses_of_ge {refL userL : List NormalizedLandmark}
    (h1 : 33 ≤ refL.length) (h2 : 33 ≤ userL.length) :
    comparePoses refL userL =
      some ⟨ANGLE_DEFINITIONS.filterMap (angleEntry refL userL) ++ [torsoEntry refL userL],
        overallScoreOf
          (ANGLE_DEFINITIONS.filterMap (angleEntry refL userL) ++ [torsoEntry refL userL]),
        regionScoresOf
          (ANGLE_DEFINITIONS.filterMap (angleEntry refL userL) ++ [torsoEntry refL userL])⟩ := by
  unfold comparePoses
  rw [if_neg (by omega)]
  dsimp only
  rw [if_neg (by simp)]

/-- Inversion: a produced result is exactly the aggregation of the loop
entries plus the torso-lean entry, and both inputs had length at least 33. -/
lemma comparePoses_some_inv {refL userL : List NormalizedLandmark}
    {res : PoseComparisonResult} (h : comparePoses refL userL = some res) :
    33 ≤ refL.length ∧ 33 ≤ userL.length ∧
      res = ⟨ANGLE_DEFINITIONS.filterMap (angleEntry refL userL) ++ [torsoEntry refL userL],
        overallScoreOf
          (ANGLE_DEFINITIONS.filterMap (angleEntry refL userL) ++ [torsoEntry refL userL]),
        regionScoresOf
          (ANGLE_DEFINITIONS.filterMap (angleEntry refL userL) ++ [torsoEntry refL userL])⟩ := by
  by_cases hlen : refL.length < 33 ∨ userL.length < 33
  · rw [comparePoses, if_pos hlen] at h
    exact absurd h (by simp)
  · push_neg at hlen
    refine ⟨hlen.1, hlen.2, ?_⟩
    rw [comparePoses_of_ge hlen.1 hlen.2] at h
    exact (Option.some_injective _ h).symm

/-- `comparePoses` returns `null` exactly for inputs shorter than 33. -/
lemma comparePoses_none_iff (refL userL : List NormalizedLandmark) :
    comparePoses refL userL = none ↔ refL.length < 33 ∨ userL.length < 33 := by
  constructor
  · intro h
    by_contra hlen
    push_neg at hlen
    rw [comparePoses_of_ge hlen.1 hlen.2] at h
    exact absurd h (by simp)
  · intro h
    rw [comparePoses, if_pos h]

/-- C9 witness: the theorem at coincident concrete points A = B. -/
theorem C9_calculateAngle_degenerate_witness :
    (pt0.x = pt0.x ∧ pt0.y = pt0.y ∧ pt0.z = pt0.z) ∧
      calculateAngle pt0 pt0 ptHip = 0 :=
  ⟨⟨rfl, rfl, rfl⟩,
   (C9_calculateAngle_degenerate pt0 pt0 ptHip).1 (Or.inl ⟨rfl, rfl, rfl⟩)⟩

/-- C4 counterexample: a 34-landmark set — a length other than 33 — still
produces a result, so "only when both input landmark sets have length
exactly 33" is false of the code, which only rejects lengths below 33. -/
theorem C4_counterexample :
    ex34.length = 34 ∧ comparePoses ex34 ex34 ≠ none := by
  refine ⟨rfl, ?_⟩
  rw [comparePoses_of_ge (by rw [show ex34.length = 34 from rfl]; omega)
    (by rw [show ex34.length = 34 from rfl]; omega)]
  simp

/-- C4 amended: `comparePoses` produces a result exactly when both inputs
have length at least 33; any shorter (including empty) input yields `null`,
never a thrown fault, and inputs are never padded. -/
theorem C4_length_guard :
    ∀ refLandmarks userLandmarks : List NormalizedLandmark,
      comparePoses refLandmarks userLandmarks = none ↔
        refLandmarks.length < 33 ∨ userLandmarks.length < 33 := by
  intro refL userL
  exact comparePoses_none_iff refL userL

/-- C3 counterexample: on 33-landmark inputs whose visibilities are all below
threshold, confidence gating removes every catalog angle, yet `comparePoses`
still returns a result (the unconditional torso-lean entry keeps the angle
list non-empty), so "produces no result" is false of the code. -/
theorem C3_counterexample :
    ANGLE_DEFINITIONS.filterMap (angleEntry exLms exLms) = [] ∧
      comparePoses exLms exLms ≠ none := by
  refine ⟨filterMap_exLms_nil, ?_⟩
  rw [comparePoses_exLms]
  simp

/-- C3 amended: when confidence gating removes all eight catalog angles from
a pair of well-formed inputs, `comparePoses` still produces a result whose
angle list is exactly the torso-lean entry (the torso-lean comparison is
appended unconditionally, so the angle list is never empty and the
empty-list null branch is unreachable). -/
theorem C3_all_gated_torso_only :
    ∀ refLandmarks userLandmarks : List NormalizedLandmark,
      33 ≤ refLandmarks.length → 33 ≤ userLandmarks.length →
      ANGLE_DEFINITIONS.filterMap (angleEntry refLandmarks userLandmarks) = [] →
      comparePoses refLandmarks userLandmarks =
        some ⟨[torsoEntry refLandmarks userLandmarks],
          overallScoreOf [torsoEntry refLandmarks userLandmarks],
          regionScoresOf [torsoEntry refLandmarks userLandmarks]⟩ := by
  intro refL userL h1 h2 hgate
  rw [comparePoses_of_ge h1 h2, hgate, List.nil_append]

/-- C3 amended witness: the theorem at the all-invisible 33-landmark set. -/
theorem C3_all_gated_torso_only_witness :
    33 ≤ exLms.length ∧
      ANGLE_DEFINITIONS.filterMap (angleEntry exLms exLms) = [] ∧
      comparePoses exLms exLms =
        some ⟨[torsoEntry exLms exLms], overallScoreOf [torsoEntry exLms exLms],
          regionScoresOf [torsoEntry exLms exLms]⟩ :=
  ⟨by rw [exLms_length], filterMap_exLms_nil,
   C3_all_gated_torso_only exLms exLms (by rw [exLms_length]) (by rw [exLms_length])
     filterMap_exLms_nil⟩

/-- Inversion: a loop iteration only pushes an entry when all six dependent
landmarks pass the visibility gate in both sets, and the entry carries the
definition's name and region. -/
lemma angleEntry_some_inv {refL userL : List NormalizedLandmark} {d : AngleDefinition}
    {ac : AngleComparison} (h : angleEntry refL userL d = some ac) :
    landmarkVisible (refL.get? d.a) ∧ landmarkVisible (refL.get? d.b) ∧
      landmarkVisible (refL.get? d.c) ∧ landmarkVisible (userL.get? d.a) ∧
      landmarkVisible (userL.get? d.b) ∧ landmarkVisible (userL.get? d.c) ∧
      ac.name = d.name ∧ ac.region = d.region := by
  unfold angleEntry at h
  rcases hra : refL.get? d.a with _ | refA <;> rw [hra] at h <;>
    rcases hrb : refL.get? d.b with _ | refB <;> rw [hrb] at h <;>
      rcases hrc : refL.get? d.c with _ | refC <;> rw [hrc] at h <;>
        rcases hua : userL.get? d.a with _ | userA <;> rw [hua] at h <;>
          rcases hub : userL.get? d.b with _ | userB <;> rw [hub] at h <;>
            rcases huc : userL.get? d.c with _ | userC <;> rw [huc] at h <;>
              first
                | exact Option.noConfusion h
                | skip
  dsimp only at h
  show visibleLandmark refA ∧ visibleLandmark refB ∧ visibleLandmark refC ∧
    visibleLandmark userA ∧ visibleLandmark userB ∧ visibleLandmark userC ∧
    ac.name = d.name ∧ ac.region = d.region
  split_ifs at h with hv
  obtain ⟨h1, h2, h3, h4, h5, h6⟩ := hv
  cases h
  exact ⟨h1, h2, h3, h4, h5, h6, rfl, rfl⟩

/-- Distinct catalog entries carry distinct names. -/
lemma ANGLE_DEFINITIONS_name_inj :
    ∀ d ∈ ANGLE_DEFINITIONS, ∀ e ∈ ANGLE_DEFINITIONS, d.name = e.name → d = e := by
  decide

/-- No catalog entry is named "Torso Lean". -/
lemma ANGLE_DEFINITIONS_no_torso :
    ∀ d ∈ ANGLE_DEFINITIONS, d.name ≠ "Torso Lean" := by
  decide

/-- C2 counterexample: in a set where every landmark (including the shoulders
11, 12 and hips 23, 24 the torso lean depends on) is below the visibility
threshold, the output still contains the "Torso Lean" entry, so the claim's
"including the torso-lean measurement" is false of the code. -/
theorem C2_counterexample :
    ¬ landmarkVisible (exLms.get? 11) ∧ ¬ landmarkVisible (exLms.get? 12) ∧
      ¬ landmarkVisible (exLms.get? 23) ∧ ¬ landmarkVisible (exLms.get? 24) ∧
      comparePoses exLms exLms = some exRes ∧
      exRes.angles.map AngleComparison.name = ["Torso Lean"] :=
  ⟨exLms_invisible 11, exLms_invisible 12, exLms_invisible 23, exLms_invisible 24,
   comparePoses_exLms, rfl⟩

/-- C2 amended: each of the eight catalog angles appears in the output only
if every landmark it depends on passes the visibility gate in both sets
(otherwise it is absent, not scored 0), but the torso-lean comparison is
appended unconditionally, with no visibility gate. -/
theorem C2_visibility_gating :
    ∀ (refLandmarks userLandmarks : List NormalizedLandmark)
      (res : PoseComparisonResult),
      comparePoses refLandmarks userLandmarks = some res →
      (∀ d ∈ ANGLE_DEFINITIONS, ∀ ac ∈ res.angles, ac.name = d.name →
        landmarkVisible (refLandmarks.get? d.a) ∧
        landmarkVisible (refLandmarks.get? d.b) ∧
        landmarkVisible (refLandmarks.get? d.c) ∧
        landmarkVisible (userLandmarks.get? d.a) ∧
        landmarkVisible (userLandmarks.get? d.b) ∧
        landmarkVisible (userLandmarks.get? d.c)) ∧
      ∃ ac ∈ res.angles, ac.name = "Torso Lean" ∧ ac.region = Region.torso := by
  intro refL userL res h
  obtain ⟨-, -, hres⟩ := comparePoses_some_inv h
  subst hres
  constructor
  · intro d hd ac hac hname
    rcases List.mem_append.1 hac with hmem | hmem
    · obtain ⟨e, he, hent⟩ := List.mem_filterMap.1 hmem
      obtain ⟨h1, h2, h3, h4, h5, h6, hnm, -⟩ := angleEntry_some_inv hent
      have : e = d := ANGLE_DEFINITIONS_name_inj e he d hd (hnm ▸ hname)
      subst this
      exact ⟨h1, h2, h3, h4, h5, h6⟩
    · rw [List.mem_singleton.1 hmem] at hname
      exact absurd hname.symm (ANGLE_DEFINITIONS_no_torso d hd)
  · exact ⟨torsoEntry refL userL, List.mem_append_right _ (List.mem_singleton_self _),
      rfl, rfl⟩

/-- C2 amended witness: the theorem at the all-invisible 33-landmark set. -/
theorem C2_visibility_gating_witness :
    comparePoses exLms exLms = some exRes ∧
      ∃ ac ∈ exRes.angles, ac.name = "Torso Lean" ∧ ac.region = Region.torso :=
  ⟨comparePoses_exLms,
   (C2_visibility_gating exLms exLms exRes comparePoses_exLms).2⟩

/-- Membership in the fold building the bucket key list. -/
lemma mem_regionsOf_foldl (l : List AngleComparison) :
    ∀ (acc : List Region) (r : Region),
      (r ∈ l.foldl (fun acc a_ => if a_.region ∈ acc then acc else acc ++ [a_.region]) acc ↔
        r ∈ acc ∨ ∃ ac ∈ l, ac.region = r) := by
  induction l with
  | nil => intro acc r; simp
  | cons a l ih =>
    intro acc r
    rw [List.foldl_cons, ih]
    by_cases hmem : a.region ∈ acc
    · rw [if_pos hmem]
      constructor
      · rintro (h | ⟨ac, hac, hr⟩)
        · exact Or.inl h
        · exact Or.inr ⟨ac, List.mem_cons_of_mem _ hac, hr⟩
      · rintro (h | ⟨ac, hac, hr⟩)
        · exact Or.inl h
        · rcases List.mem_cons.1 hac with rfl | hac2
          · exact Or.inl (hr ▸ hmem)
          · exact Or.inr ⟨ac, hac2, hr⟩
    · rw [if_neg hmem]
      constructor
      · rintro (h | ⟨ac, hac, hr⟩)
        · rcases List.mem_append.1 h with h2 | h2
          · exact Or.inl h2
          · exact Or.inr ⟨a, List.mem_cons_self _ _, (List.mem_singleton.1 h2).symm⟩
        · exact Or.inr ⟨ac, List.mem_cons_of_mem _ hac, hr⟩
      · rintro (h | ⟨ac, hac, hr⟩)
        · exact Or.inl (List.mem_append_left _ h)
        · rcases List.mem_cons.1 hac with rfl | hac2
          · exact Or.inl (List.mem_append_right _ (by rw [hr]; exact List.mem_singleton_self _))
          · exact Or.inr ⟨ac, hac2, hr⟩

/-- A region is a bucket key exactly when some angle contributes to it. -/
lemma mem_regionsOf {angles : List AngleComparison} {r : Region} :
    r ∈ regionsOf angles ↔ ∃ ac ∈ angles, ac.region = r := by
  rw [regionsOf, mem_regionsOf_foldl]
  simp

/-- Property lookup on a keyed map built over a key list. -/
lemma lookupRegion_map (f : Region → ℝ) :
    ∀ (l : List Region) (r : Region),
      lookupRegion (l.map fun x => (x, f x)) r = if r ∈ l then some (f r) else none := by
  intro l
  induction l with
  | nil => intro r; simp [lookupRegion]
  | cons x l ih =>
    intro r
    rw [List.map_cons]
    by_cases hx : x = r
    · subst hx
      rw [lookupRegion, if_pos rfl, if_pos (List.mem_cons_self _ _)]
    · rw [lookupRegion, if_neg hx, ih]
      by_cases hr : r ∈ l
      · rw [if_pos hr, if_pos (List.mem_cons_of_mem _ hr)]
      · rw [if_neg hr, if_neg (by simp [hr, Ne.symm hx])]

/-- Lookup in the aggregated per-region map: the mean of the contributing
scores when the region has contributors, absent otherwise. -/
lemma lookupRegion_regionScoresOf (angles : List AngleComparison) (r : Region) :
    lookupRegion (regionScoresOf angles) r =
      if r ∈ regionsOf angles then
        some ((((angles.filter fun ac => ac.region = r).map AngleComparison.score).sum) /
          (((angles.filter fun ac => ac.region = r).map AngleComparison.score).length))
      else none := by
  rw [regionScoresOf]
  exact lookupRegion_map
    (fun x => (((angles.filter fun ac => ac.region = x).map AngleComparison.score).sum) /
      (((angles.filter fun ac => ac.region = x).map AngleComparison.score).length))
    (regionsOf angles) r

/-- C5: in any produced result, each region with at least one contributing
angle maps to the arithmetic mean of those angles' scores, a region with no
contributing angle is absent from the mapping (not mapped to 0), and the
overall score is the arithmetic mean of all individual angle scores times
100 (not a mean of the region means). -/
theorem C5_region_aggregation :
    ∀ (refLandmarks userLandmarks : List NormalizedLandmark)
      (res : PoseComparisonResult),
      comparePoses refLandmarks userLandmarks = some res →
      res.angles ≠ [] ∧
      (∀ r : Region, (∃ ac ∈ res.angles, ac.region = r) →
        lookupRegion res.regionScores r =
          some ((((res.angles.filter fun ac => ac.region = r).map AngleComparison.score).sum) /
            (((res.angles.filter fun ac => ac.region = r).map AngleComparison.score).length))) ∧
      (∀ r : Region, (∀ ac ∈ res.angles, ac.region ≠ r) →
        lookupRegion res.regionScores r = none) ∧
      res.overallScore = (res.angles.map AngleComparison.score).sum / res.angles.length * 100 := by
  intro refL userL res h
  obtain ⟨-, -, hres⟩ := comparePoses_some_inv h
  subst hres
  refine ⟨by simp, ?_, ?_, rfl⟩
  · intro r hr
    rw [lookupRegion_regionScoresOf, if_pos (mem_regionsOf.2 hr)]
  · intro r hr
    rw [lookupRegion_regionScoresOf, if_neg]
    rw [mem_regionsOf]
    rintro ⟨ac, hac, hreg⟩
    exact hr ac hac hreg

/-- C5 witness: the theorem at the all-invisible 33-landmark set, where the
torso region is present and the left-arm region is absent. -/
theorem C5_region_aggregation_witness :
    comparePoses exLms exLms = some exRes ∧
      lookupRegion exRes.regionScores Region.torso =
        some ((((exRes.angles.filter fun ac => ac.region = Region.torso).map
          AngleComparison.score).sum) /
          (((exRes.angles.filter fun ac => ac.region = Region.torso).map
            AngleComparison.score).length)) ∧
      lookupRegion exRes.regionScores Region.leftArm = none :=
  ⟨comparePoses_exLms,
   (C5_region_aggregation exLms exLms exRes comparePoses_exLms).2.1 Region.torso
     ⟨torsoEntry exLms exLms, List.mem_singleton_self _, rfl⟩,
   (C5_region_aggregation exLms exLms exRes comparePoses_exLms).2.2.1 Region.leftArm
     (by intro ac hac; rw [List.mem_singleton.1 hac]; decide)⟩

/-- C10: on any pair of inputs of length at least 33, `comparePoses` returns
a non-null result whose angle list contains the "Torso Lean" entry and whose
region map contains the torso key, with no condition on any visibility; and
a null outcome arises only from an input of length below 33. -/
theorem C10_torso_unconditional :
    (∀ refLandmarks userLandmarks : List NormalizedLandmark,
      33 ≤ refLandmarks.length → 33 ≤ userLandmarks.length →
      ∃ res, comparePoses refLandmarks userLandmarks = some res ∧
        res.angles ≠ [] ∧
        "Torso Lean" ∈ res.angles.map AngleComparison.name ∧
        lookupRegion res.regionScores Region.torso ≠ none) ∧
    ∀ refLandmarks userLandmarks : List NormalizedLandmark,
      comparePoses refLandmarks userLandmarks = none →
      refLandmarks.length < 33 ∨ userLandmarks.length < 33 := by
  constructor
  · intro refL userL h1 h2
    refine ⟨_, comparePoses_of_ge h1 h2, by simp, ?_, ?_⟩
    · exact List.mem_map.2 ⟨torsoEntry refL userL,
        List.mem_append_right _ (List.mem_singleton_self _), rfl⟩
    · have hmem : Region.torso ∈ regionsOf
          (ANGLE_DEFINITIONS.filterMap (angleEntry refL userL) ++ [torsoEntry refL userL]) :=
        mem_regionsOf.2 ⟨torsoEntry refL userL,
          List.mem_append_right _ (List.mem_singleton_self _), rfl⟩
      rw [lookupRegion_regionScoresOf, if_pos hmem]
      simp
  · intro refL userL h
    exact (comparePoses_none_iff refL userL).1 h

/-- C10 witness: the theorem at the all-invisible 33-landmark set, whose
length hypotheses hold with equality. -/
theorem C10_torso_unconditional_witness :
    33 ≤ exLms.length ∧
      ∃ res, comparePoses exLms exLms = some res ∧
        res.angles ≠ [] ∧
        "Torso Lean" ∈ res.angles.map AngleComparison.name ∧
        lookupRegion res.regionScores Region.torso ≠ none :=
  ⟨by rw [exLms_length],
   C10_torso_unconditional.1 exLms exLms (by rw [exLms_length]) (by rw [exLms_length])⟩

/-- Indexing into the blended frame in terms of the two input frames. -/
lemma get_zipWith_blend (alpha : ℝ) :
    ∀ (l1 l2 : List NormalizedLandmark) (i : Nat)
      (h1 : i < l1.length) (h2 : i < l2.length)
      (h : i < (List.zipWith (blendLandmark alpha) l1 l2).length),
      (List.zipWith (blendLandmark alpha) l1 l2).get ⟨i, h⟩ =
        blendLandmark alpha (l1.get ⟨i, h1⟩) (l2.get ⟨i, h2⟩) := by
  intro l1
  induction l1 with
  | nil => intro l2 i h1 h2 h; exact absurd h1 (by simp)
  | cons a l1 ih =>
    intro l2 i h1 h2 h
    cases l2 with
    | nil => exact absurd h2 (by simp)
    | cons b l2 =>
      cases i with
      | zero => rfl
      | succ n =>
        exact ih l2 n (Nat.lt_of_succ_lt_succ h1) (Nat.lt_of_succ_lt_succ h2)
          (Nat.lt_of_succ_lt_succ (by simpa [List.length_zipWith] using h))

/-- A fresh positional smoother with the default interpolation factor. -/
noncomputable def sFresh : LandmarkSmoother := ⟨none, 0.35⟩

/-- A positional smoother already holding a one-landmark previous frame. -/
noncomputable def sPrimed : LandmarkSmoother := ⟨some [pt0], 0.5⟩

/-- C6: on a first `smooth` call, or on any call whose input length differs
from the stored previous length, the raw input is stored and returned
unchanged; otherwise each coordinate x, y, z of each point is independently
`alpha * raw + (1 - alpha) * previous`, the visibility passes through raw,
and the blended frame is stored as the new previous; `reset` clears the
stored frame so the next call behaves as a first call. -/
theorem C6_landmarkSmoother_spec :
    (∀ (s : LandmarkSmoother) (lms : List NormalizedLandmark),
      s.previous = none → s.smooth lms = (lms, ⟨some lms, s.alpha⟩)) ∧
    (∀ (s : LandmarkSmoother) (lms prev : List NormalizedLandmark),
      s.previous = some prev → prev.length ≠ lms.length →
      s.smooth lms = (lms, ⟨some lms, s.alpha⟩)) ∧
    (∀ (s : LandmarkSmoother) (lms prev : List NormalizedLandmark),
      s.previous = some prev → prev.length = lms.length →
      (s.smooth lms).1.length = lms.length ∧
      (s.smooth lms).2 = ⟨some (s.smooth lms).1, s.alpha⟩ ∧
      (∀ (i : Nat) (hi : i < lms.length) (hp : i < prev.length)
          (ho : i < (s.smooth lms).1.length),
        ((s.smooth lms).1.get ⟨i, ho⟩).x =
          s.alpha * (lms.get ⟨i, hi⟩).x + (1 - s.alpha) * (prev.get ⟨i, hp⟩).x ∧
        ((s.smooth lms).1.get ⟨i, ho⟩).y =
          s.alpha * (lms.get ⟨i, hi⟩).y + (1 - s.alpha) * (prev.get ⟨i, hp⟩).y ∧
        ((s.smooth lms).1.get ⟨i, ho⟩).z =
          s.alpha * (lms.get ⟨i, hi⟩).z + (1 - s.alpha) * (prev.get ⟨i, hp⟩).z ∧
        ((s.smooth lms).1.get ⟨i, ho⟩).visibility = (lms.get ⟨i, hi⟩).visibility)) ∧
    (∀ s : LandmarkSmoother, s.reset.previous = none) ∧
    (∀ (s : LandmarkSmoother) (lms : List NormalizedLandmark),
      s.reset.smooth lms = (lms, ⟨some lms, s.alpha⟩)) := by
  have hfirst : ∀ (s : LandmarkSmoother) (lms : List NormalizedLandmark),
      s.previous = none → s.smooth lms = (lms, ⟨some lms, s.alpha⟩) := by
    intro s lms h
    unfold LandmarkSmoother.smooth
    rw [h]
  refine ⟨hfirst, ?_, ?_, fun s => rfl, fun s lms => hfirst s.reset lms rfl⟩
  · intro s lms prev h hne
    unfold LandmarkSmoother.smooth
    rw [h]
    dsimp only
    rw [if_pos hne]
  · intro s lms prev h heq
    have hsm : s.smooth lms =
        (List.zipWith (blendLandmark s.alpha) lms prev,
         ⟨some (List.zipWith (blendLandmark s.alpha) lms prev), s.alpha⟩) := by
      unfold LandmarkSmoother.smooth
      rw [h]
      dsimp only
      rw [if_neg (fun hne => hne heq)]
    rw [hsm]
    refine ⟨by rw [List.length_zipWith, heq, min_self], rfl, ?_⟩
    intro i hi hp ho
    rw [get_zipWith_blend s.alpha lms prev i hi hp ho]
    exact ⟨rfl, rfl, rfl, rfl⟩

/-- C6 witness: a first call on a fresh smoother, a blended call on a primed
smoother with matching lengths, and a reset. -/
theorem C6_landmarkSmoother_spec_witness :
    sFresh.previous = none ∧
      sFresh.smooth [ptHip] = ([ptHip], ⟨some [ptHip], sFresh.alpha⟩) ∧
      sPrimed.previous = some [pt0] ∧
      ([pt0] : List NormalizedLandmark).length = ([ptHip] : List NormalizedLandmark).length ∧
      (sPrimed.smooth [ptHip]).1.length = ([ptHip] : List NormalizedLandmark).length ∧
      (sPrimed.smooth [ptHip]).2 = ⟨some (sPrimed.smooth [ptHip]).1, sPrimed.alpha⟩ ∧
      sPrimed.reset.previous = none :=
  ⟨rfl,
   C6_landmarkSmoother_spec.1 sFresh [ptHip] rfl,
   rfl, rfl,
   (C6_landmarkSmoother_spec.2.2.1 sPrimed [ptHip] [pt0] rfl rfl).1,
   (C6_landmarkSmoother_spec.2.2.1 sPrimed [ptHip] [pt0] rfl rfl).2.1,
   C6_landmarkSmoother_spec.2.2.2.1 sPrimed⟩

/-- Writing a key then reading it back yields the written value. -/
lemma getKey_setKey_self (m : List (String × ℝ)) (k : String) (v : ℝ) :
    getKey (setKey m k v) k = some v := by
  induction m with
  | nil => simp [setKey, getKey]
  | cons p rest ih => by_cases h : p.1 = k <;> simp [setKey, getKey, h, ih]

/-- Writing one key leaves every other key's value unchanged. -/
lemma getKey_setKey_ne (m : List (String × ℝ)) (k : String) (v : ℝ)
    (k' : String) (h : k' ≠ k) : getKey (setKey m k v) k' = getKey m k' := by
  induction m with
  | nil => simp [setKey, getKey, Ne.symm h]
  | cons p rest ih =>
    by_cases hp : p.1 = k <;> simp [setKey, getKey, hp, ih, Ne.symm h]

/-- The update loop does not touch keys that are absent from the incoming
mapping. -/
lemma getKey_emaFold_not_mem (alpha : ℝ) :
    ∀ (incoming init : List (String × ℝ)) (k : String),
      k ∉ incoming.map Prod.fst →
      getKey (emaFold alpha init incoming) k = getKey init k := by
  intro incoming
  induction incoming with
  | nil => intro init k _; rfl
  | cons kv rest ih =>
    intro init k hk
    simp only [List.map_cons, List.mem_cons, not_or] at hk
    show getKey (emaFold alpha
      (setKey init kv.1 (alpha * kv.2 + (1 - alpha) * ((getKey init kv.1).getD kv.2)))
      rest) k = getKey init k
    rw [ih _ k hk.2, getKey_setKey_ne _ _ _ _ hk.1]

/-- The update loop blends every incoming key against its stored value,
defaulting to the incoming value itself when the key was never stored. -/
lemma getKey_emaFold_mem (alpha : ℝ) :
    ∀ (incoming init : List (String × ℝ)) (k : String) (v : ℝ),
      (incoming.map Prod.fst).Nodup → (k, v) ∈ incoming →
      getKey (emaFold alpha init incoming) k =
        some (alpha * v + (1 - alpha) * ((getKey init k).getD v)) := by
  intro incoming
  induction incoming with
  | nil => intro init k v _ hmem; exact absurd hmem (List.not_mem_nil _)
  | cons kv rest ih =>
    intro init k v hnd hmem
    simp only [List.map_cons, List.nodup_cons] at hnd
    show getKey (emaFold alpha
      (setKey init kv.1 (alpha * kv.2 + (1 - alpha) * ((getKey init kv.1).getD kv.2)))
      rest) k = some (alpha * v + (1 - alpha) * ((getKey init k).getD v))
    rcases List.mem_cons.1 hmem with rfl | hrest
    · dsimp only at hnd ⊢
      rw [getKey_emaFold_not_mem alpha rest _ k hnd.1, getKey_setKey_self]
    · have hk1 : k ≠ kv.1 := by
        intro he
        exact hnd.1 (he ▸ List.mem_map.2 ⟨(k, v), hrest, rfl⟩)
      rw [ih _ k v hnd.2 hrest, getKey_setKey_ne _ _ _ _ hk1]

/-- The region key "a" used in the score-smoother examples. -/
def keyA : String := "a"

/-- The region key "b" used in the score-smoother examples. -/
def keyB : String := "b"

/-- The region key "c" used in the score-smoother examples. -/
def keyC : String := "c"

/-- A primed score smoother holding the keys "a" and "c". -/
noncomputable def ssPrimed : ScoreSmoother := ⟨[(keyA, 1), (keyC, 7)], 4, true, 0.5⟩

/-- An unprimed score smoother carrying leftover junk state. -/
noncomputable def ssJunk : ScoreSmoother := ⟨[("a", 1)], 2, false, 0.5⟩

/-- C7: on a primed score smoother, every key of the incoming mapping is
blended as `alpha * incoming + (1 - alpha) * previous`, where the previous
value defaults to the incoming value itself when the key was never stored
(so a newly-appearing region's first smoothed value equals its incoming
value); every key absent from the incoming mapping keeps its stored value
unchanged (no decay toward zero); and the overall score is always blended
against the previous overall score. -/
theorem C7_scoreSmoother_primed :
    ∀ (s : ScoreSmoother) (incoming : List (String × ℝ)) (overall : ℝ),
      s.hasData = true → (incoming.map Prod.fst).Nodup →
      (∀ k v, (k, v) ∈ incoming →
        getKey (s.update incoming overall).1.1 k =
          some (s.alpha * v + (1 - s.alpha) * ((getKey s.smoothedRegions k).getD v))) ∧
      (∀ k v, (k, v) ∈ incoming → getKey s.smoothedRegions k = none →
        getKey (s.update incoming overall).1.1 k = some v) ∧
      (∀ k, k ∉ incoming.map Prod.fst →
        getKey (s.update incoming overall).1.1 k = getKey s.smoothedRegions k) ∧
      (s.update incoming overall).1.2 =
        s.alpha * overall + (1 - s.alpha) * s.smoothedOverall := by
  intro s incoming overall hd hnd
  have hup : (s.update incoming overall).1 =
      (emaFold s.alpha s.smoothedRegions incoming,
       s.alpha * overall + (1 - s.alpha) * s.smoothedOverall) := by
    rw [ScoreSmoother.update, if_pos hd]
  rw [hup]
  refine ⟨?_, ?_, ?_, rfl⟩
  · intro k v hm
    exact getKey_emaFold_mem s.alpha incoming s.smoothedRegions k v hnd hm
  · intro k v hm hnone
    rw [getKey_emaFold_mem s.alpha incoming s.smoothedRegions k v hnd hm, hnone,
      Option.getD_none]
    ring_nf
  · intro k hk
    exact getKey_emaFold_not_mem s.alpha incoming s.smoothedRegions k hk

/-- C7 witness: a primed smoother with stored keys "a" and "c" updated with
incoming keys "a" (stored: blended) and "b" (new: kept at its incoming
value), while the absent key "c" is untouched and the overall is blended. -/
theorem C7_scoreSmoother_primed_witness :
    ssPrimed.hasData = true ∧
      (([(keyA, 3), (keyB, 5)] : List (String × ℝ)).map Prod.fst).Nodup ∧
      getKey (ssPrimed.update [(keyA, 3), (keyB, 5)] 10).1.1 keyA =
        some (ssPrimed.alpha * 3 +
          (1 - ssPrimed.alpha) * ((getKey ssPrimed.smoothedRegions keyA).getD 3)) ∧
      getKey (ssPrimed.update [(keyA, 3), (keyB, 5)] 10).1.1 keyB = some 5 ∧
      getKey (ssPrimed.update [(keyA, 3), (keyB, 5)] 10).1.1 keyC =
        getKey ssPrimed.smoothedRegions keyC ∧
      (ssPrimed.update [(keyA, 3), (keyB, 5)] 10).1.2 =
        ssPrimed.alpha * 10 + (1 - ssPrimed.alpha) * ssPrimed.smoothedOverall :=
  ⟨rfl, by simp [keyA, keyB],
   (C7_scoreSmoother_primed ssPrimed [(keyA, 3), (keyB, 5)] 10 rfl
     (by simp [keyA, keyB])).1 keyA 3 (by simp),
   (C7_scoreSmoother_primed ssPrimed [(keyA, 3), (keyB, 5)] 10 rfl
     (by simp [keyA, keyB])).2.1 keyB 5 (by simp)
     (by simp [ssPrimed, getKey, keyA, keyB, keyC]),
   (C7_scoreSmoother_primed ssPrimed [(keyA, 3), (keyB, 5)] 10 rfl
     (by simp [keyA, keyB])).2.2.1 keyC (by simp [keyA, keyB, keyC]),
   (C7_scoreSmoother_primed ssPrimed [(keyA, 3), (keyB, 5)] 10 rfl
     (by simp [keyA, keyB])).2.2.2⟩

/-- C8: the first `update` call on an unprimed score smoother returns its
inputs unchanged — even with leftover stored state — and `reset` followed by
`update` behaves exactly like a first call on a fresh instance with the same
smoothing factor. -/
theorem C8_scoreSmoother_fresh :
    ∀ (s : ScoreSmoother) (incoming : List (String × ℝ)) (overall : ℝ),
      (s.hasData = false → (s.update incoming overall).1 = (incoming, overall)) ∧
      (s.reset.update incoming overall).1 = (incoming, overall) ∧
      s.reset.update incoming overall =
        (ScoreSmoother.mk [] 0 false s.alpha).update incoming overall := by
  intro s incoming overall
  refine ⟨?_, ?_, rfl⟩
  · intro h
    rw [ScoreSmoother.update, if_neg (by rw [h]; exact Bool.false_ne_true)]
  · rw [ScoreSmoother.update, if_neg (by exact Bool.false_ne_true)]

/-- C8 witness: the theorem at an unprimed smoother carrying junk state. -/
theorem C8_scoreSmoother_fresh_witness :
    ssJunk.hasData = false ∧
      (ssJunk.update [("b", 3)] 7).1 = ([("b", 3)], 7) ∧
      (ssJunk.reset.update [("b", 3)] 7).1 = ([("b", 3)], 7) ∧
      ssJunk.reset.update [("b", 3)] 7 =
        (ScoreSmoother.mk [] 0 false ssJunk.alpha).update [("b", 3)] 7 :=
  ⟨rfl,
   (C8_scoreSmoother_fresh ssJunk [("b", 3)] 7).1 rfl,
   (C8_scoreSmoother_fresh ssJunk [("b", 3)] 7).2.1,
   (C8_scoreSmoother_fresh ssJunk [("b", 3)] 7).2.2⟩
